import Mathlib

set_option maxHeartbeats 1000000

/- Shallow embedding of the gohotstuff p2p switch (package p2p, switch.go).
   External collaborators (libp2p host, DHT client, address parsing, key
   decoding) are oracles collected in an Env record; the switch's mutable
   fields (peer registry, DHT routing table, reactor table, config) form a
   SwitchState record, and each method is a pure function from Env and
   SwitchState to a new state, a trace of observable events (log lines,
   send attempts, stream closes, routing-table removals) and an optional
   returned error. -/

namespace P2P

abbrev Identity := String
abbrev Stream := Nat
abbrev MAddr := Nat
abbrev PrivKey := Nat
abbrev Module := Nat
abbrev Reactor := Nat

structure AddrInfo where
  ID : Identity
  Addrs : List Nat
deriving DecidableEq

/-- Modelled from the spec: the Peer component (its source file is not under
src/, only its callers are). A Peer wraps one established stream to a single
remote identity; Validate reports whether the underlying stream is still
usable (valid = true means Validate returns nil); Send writes a framed
message and returns a success/failure boolean, modelled by sendOk. -/
structure Peer where
  ID : Identity
  valid : Bool
  sendOk : Bool
deriving DecidableEq

/-- Modelled from the spec: the PeerSet component (its source file is not
under src/), a registry of live Peers keyed by remote identity. -/
structure PeerSet where
  entries : List Peer
deriving DecidableEq

/-- Modelled from the spec: PeerSet lookup by identity; none plays the role
of the "peer not found" error returned by Find. -/
def PeerSet.Find (ps : PeerSet) (id : Identity) : Option Peer :=
  ps.entries.find? (fun p => p.ID == id)

/-- Modelled from the spec: PeerSet insertion keyed by identity, with map
semantics: an existing entry under the same key is replaced in place,
otherwise the new peer is appended. -/
def PeerSet.Add (ps : PeerSet) (p : Peer) : PeerSet :=
  if ps.entries.any (fun q => q.ID == p.ID) then
    { entries := ps.entries.map (fun q => if q.ID == p.ID then p else q) }
  else
    { entries := ps.entries ++ [p] }

/-- Modelled from the spec: PeerSet.Range applies f to every registered peer
and signals completion once every application is done; the returned list
holds the result for each peer in registry order, and the caller receiving
the list models the caller unblocking on the completion signal. -/
def PeerSet.Range {α : Type} (ps : PeerSet) (f : Peer → α) : List α :=
  ps.entries.map f

/-- Keys (identities) registered in the peer set. -/
def PeerSet.keys (ps : PeerSet) : List Identity :=
  ps.entries.map Peer.ID

/-- At most one entry per identity in the registry. -/
def PeerSet.uniqueKeys (ps : PeerSet) : Prop :=
  ps.keys.Nodup

instance (ps : PeerSet) : Decidable ps.uniqueKeys := by
  unfold PeerSet.uniqueKeys
  infer_instance

/-- Observable effects of the switch: log lines at error and info level
(identified by their fixed message prefix), per-peer send attempts tagged
with channel id and payload, stream closes and DHT routing-table removals. -/
inductive Event where
  | logError : String → Event
  | logInfo : String → Event
  | sendAttempt : Identity → Int → List Nat → Event
  | closeStream : Stream → Event
  | dhtRemove : Identity → Event
  | peerStart : Identity → Event
deriving DecidableEq

/-- Errors returned by switch methods, one constructor per distinct failure
site in switch.go. -/
inductive PErr where
  | decodeErr
  | unmarshalErr
  | hostErr
  | dhtErr
  | kdhtBootstrapErr
  | parseErr
  | addrInfoErr
  | connectErr
  | streamErr
  | newPeerErr
  | moduleRegistered
  | notFound
  | sendFail
deriving DecidableEq

/-- The external collaborators of the switch, as oracles: stream opening
(host.NewStream), the peerstore (PeerInfo), peer construction
(NewDefaultPeer, which may fail), low-level connection (host.Connect),
multiaddress parsing (ipfsaddr.ParseString, peer.AddrInfoFromP2pAddr),
identity parsing (peer.Decode), key material decoding
(base64.StdEncoding.DecodeString, crypto.UnmarshalPrivateKey), host and
DHT construction (libp2p.New, dht.New) and the DHT bootstrap call. In
each Option, none models the Go call returning a non-nil error. -/
structure Env where
  newStream : Identity → Option Stream
  peerInfo : Identity → AddrInfo
  NewDefaultPeer : AddrInfo → Stream → Option Peer
  hostConnect : AddrInfo → Bool
  parseString : String → Option MAddr
  addrInfoFromP2pAddr : MAddr → Option AddrInfo
  decode : String → Option Identity
  base64Decode : String → Option (List Nat)
  unmarshalPrivateKey : List Nat → Option PrivKey
  libp2pNew : Option Nat
  dhtNew : Option Nat
  kdhtBootstrapOk : Bool

/-- The mutable fields of the Switch that the embedded methods touch: the
peer registry, the DHT routing table (kdht.RoutingTable().ListPeers()),
the reactor table and the relevant configuration fields. -/
structure SwitchState where
  peers : PeerSet
  routingTable : List Identity
  reactor : List (Module × Reactor)
  cfgBootStrap : List String
  cfgPrivateKey : String
deriving DecidableEq

/-- The admission check shared by both paths: Find succeeded (err == nil)
and the found peer's Validate returned nil. -/
def existingValid (ps : PeerSet) (id : Identity) : Bool :=
  match ps.Find id with
  | some old => old.valid
  | none => false

/-- Switch.AddReactor: error if the module is already registered, otherwise
record the reactor. -/
def Switch.AddReactor (st : SwitchState) (mo : Module) (f : Reactor) :
    SwitchState × Option PErr :=
  match st.reactor.lookup mo with
  | some _ => (st, some PErr.moduleRegistered)
  | none => ({ st with reactor := st.reactor ++ [(mo, f)] }, none)

/-- Switch.dialPeersAsync: silently return nil if a still-valid peer for the
identity exists; otherwise open a stream (error returned on failure), build a
peer from the peerstore info and the stream, and on construction failure close
the stream, remove the identity from the DHT routing table and return the
error; on success add the peer to the registry and start it. -/
def Switch.dialPeersAsync (env : Env) (st : SwitchState) (id : Identity) :
    SwitchState × List Event × Option PErr :=
  if existingValid st.peers id then (st, [], none)
  else
    match env.newStream id with
    | none => (st, [Event.logError "host make newstream fail"], some PErr.streamErr)
    | some stream =>
      match env.NewDefaultPeer (env.peerInfo id) stream with
      | none =>
        ({ st with routingTable := st.routingTable.erase id },
         [Event.logError "new remote peer fail", Event.closeStream stream,
          Event.dhtRemove id],
         some PErr.newPeerErr)
      | some p =>
        ({ st with peers := st.peers.Add p }, [Event.peerStart p.ID], none)

/-- Switch.handleStream: on an inbound stream, if a still-valid peer for the
remote identity exists, log "use an old one" at error level and return;
otherwise build a peer from the peerstore info and the stream (failure only
logged), add it to the registry and start it. -/
def Switch.handleStream (env : Env) (st : SwitchState) (remote : Identity)
    (netStream : Stream) : SwitchState × List Event :=
  if existingValid st.peers remote then (st, [Event.logError "use an old one"])
  else
    match env.NewDefaultPeer (env.peerInfo remote) netStream with
    | none => (st, [Event.logError "new remote peer fail"])
    | some p =>
      ({ st with peers := st.peers.Add p },
       [Event.peerStart p.ID,
        Event.logInfo "build stream success from a new remote peer"])

/-- Modelled from the spec: on a successful host-level connect the DHT
learns the remote identity, so the routing table acquires it if absent; the
DHT is consumed only at its boundary and this is how the routing table
"acquires" peers during bootstrap. -/
def Switch.afterConnect (st : SwitchState) (ai : AddrInfo) : SwitchState :=
  { st with routingTable :=
      if st.routingTable.contains ai.ID then st.routingTable
      else st.routingTable ++ [ai.ID] }

/-- Switch.connect: parse the multiaddress, extract address info, have the
host connect, then dial the application stream; each of the first three
failures is logged and returned, while a dialPeersAsync failure is only
logged and connect still returns nil. -/
def Switch.connect (env : Env) (st : SwitchState) (multiAddr : String) :
    SwitchState × List Event × Option PErr :=
  match env.parseString multiAddr with
  | none => (st, [Event.logError "parse string failed"], some PErr.parseErr)
  | some ma =>
    match env.addrInfoFromP2pAddr ma with
    | none => (st, [Event.logError "add addrinfo failed"], some PErr.addrInfoErr)
    | some ai =>
      if env.hostConnect ai then
        match Switch.dialPeersAsync env (Switch.afterConnect st ai) ai.ID with
        | (st2, evs, some _) => (st2, evs ++ [Event.logError "dial fail"], none)
        | (st2, evs, none) => (st2, evs, none)
      else (st, [Event.logError "host connect failed"], some PErr.connectErr)

/-- One pass of the for loop in Switch.bootstrap: try to connect to every
configured bootstrap multiaddress, skipping failures (continue) and logging
"build stream success" for each success. -/
def Switch.connectAll (env : Env) (st : SwitchState) :
    List String → SwitchState × List Event
  | [] => (st, [])
  | s :: rest =>
    match Switch.connect env st s with
    | (st1, evs, some _) =>
      match Switch.connectAll env st1 rest with
      | (st2, evs2) => (st2, evs ++ evs2)
    | (st1, evs, none) =>
      match Switch.connectAll env st1 rest with
      | (st2, evs2) => (st2, evs ++ [Event.logInfo "build stream success"] ++ evs2)

/-- The retry loop of Switch.bootstrap (the goto retry): run one connect
pass over the configured bootstrap list, then, if the DHT routing table is
still empty, retry; fuel bounds the number of passes observed, and none
models the loop still running after that many passes. -/
def Switch.bootstrapLoop (env : Env) :
    Nat → SwitchState → Option (SwitchState × List Event)
  | 0, _ => none
  | fuel + 1, st =>
    match Switch.connectAll env st st.cfgBootStrap with
    | (st1, evs) =>
      if st1.routingTable.length = 0 then
        match Switch.bootstrapLoop env fuel st1 with
        | none => none
        | some (st2, evs2) => some (st2, evs ++ evs2)
      else some (st1, evs)

/-- Switch.bootstrap: bootstrap the DHT machinery (error returned on
failure), then run the retry loop until the routing table is non-empty. -/
def Switch.bootstrap (env : Env) (st : SwitchState) (fuel : Nat) :
    Option (SwitchState × List Event × Option PErr) :=
  if env.kdhtBootstrapOk then
    match Switch.bootstrapLoop env fuel st with
    | none => none
    | some p => some (p.1, p.2, none)
  else some (st, [Event.logError "kdht bootstrap failed"], some PErr.kdhtBootstrapErr)

/-- Switch.Start: decode the private key (base64 then unmarshal), construct
the libp2p host, construct the DHT client, then bootstrap; any of the first
four failures aborts Start with that error, and a bootstrap error is
returned after being logged. none models Start never returning because
bootstrap never terminates within the given fuel. -/
def Switch.Start (env : Env) (st : SwitchState) (fuel : Nat) :
    Option (SwitchState × List Event × Option PErr) :=
  match env.base64Decode st.cfgPrivateKey with
  | none => some (st, [], some PErr.decodeErr)
  | some privData =>
    match env.unmarshalPrivateKey privData with
    | none => some (st, [], some PErr.unmarshalErr)
    | some _ =>
      match env.libp2pNew with
      | none => some (st, [Event.logError "new libp2p host failed"], some PErr.hostErr)
      | some _ =>
        match env.dhtNew with
        | none => some (st, [Event.logError "new dht host failed"], some PErr.dhtErr)
        | some _ =>
          match Switch.bootstrap env st fuel with
          | none => none
          | some (st1, evs, some e) =>
            some (st1, evs ++ [Event.logError "bootstrap failed"], some e)
          | some (st1, evs, none) => some (st1, evs, none)

/-- Switch.Send: decode the identity string (a failure is only logged and
the zero-value identity, the empty string, is used), look it up in the peer
registry ("peer not found" error if absent), and attempt the per-peer send,
returning an error if it reports failure. -/
def Switch.Send (env : Env) (st : SwitchState) (pr : String) (chID : Int)
    (msg : List Nat) : List Event × Option PErr :=
  let dec :=
    match env.decode pr with
    | none => (("" : Identity), [Event.logError "fail to convert string to id"])
    | some i => (i, ([] : List Event))
  match st.peers.Find dec.1 with
  | none => (dec.2 ++ [Event.logError "fail to find peer"], some PErr.notFound)
  | some p =>
    if p.sendOk then (dec.2 ++ [Event.sendAttempt p.ID chID msg], none)
    else (dec.2 ++ [Event.sendAttempt p.ID chID msg], some PErr.sendFail)

/-- Switch.Broadcast: attempt a send of the payload on the channel to every
peer currently in the registry via PeerSet.Range, collect the per-peer
success booleans, and log completion after all attempts are done. -/
def Switch.Broadcast (st : SwitchState) (chID : Int) (msg : List Nat) :
    List Bool × List Event :=
  let attempts := st.peers.Range (fun p => (Event.sendAttempt p.ID chID msg, p.sendOk))
  (attempts.map Prod.snd,
   attempts.map Prod.fst ++ [Event.logInfo "Broadcast completed"])

/-- A bootstrap candidate that never reaches a successful host connect:
its multiaddress fails to parse, or address-info extraction fails, or the
host-level connect itself fails. -/
def connectUnreachable (env : Env) (s : String) : Bool :=
  match env.parseString s with
  | none => true
  | some ma =>
    match env.addrInfoFromP2pAddr ma with
    | none => true
    | some ai => !env.hostConnect ai

/- Concrete fixtures used by witnesses. -/

def peerA : Peer := { ID := "A", valid := true, sendOk := true }

def peerC : Peer := { ID := "C", valid := true, sendOk := false }

def env0 : Env :=
  { newStream := fun _ => some 7
    peerInfo := fun i => { ID := i, Addrs := [1] }
    NewDefaultPeer := fun ai _ => some { ID := ai.ID, valid := true, sendOk := true }
    hostConnect := fun _ => true
    parseString := fun _ => some 0
    addrInfoFromP2pAddr := fun _ => some { ID := "B", Addrs := [2] }
    decode := fun s => if s = "A" then some "A" else none
    base64Decode := fun _ => some [0]
    unmarshalPrivateKey := fun _ => some 0
    libp2pNew := some 0
    dhtNew := some 0
    kdhtBootstrapOk := true }

def envFailPeer : Env := { env0 with NewDefaultPeer := fun _ _ => none }

def envUnreach : Env := { env0 with hostConnect := fun _ => false }

def envNoKey : Env := { env0 with base64Decode := fun _ => none }

def stA : SwitchState :=
  { peers := { entries := [peerA, peerC] }
    routingTable := ["A"]
    reactor := []
    cfgBootStrap := []
    cfgPrivateKey := "k" }

def stEmpty : SwitchState :=
  { peers := { entries := [] }
    routingTable := []
    reactor := []
    cfgBootStrap := []
    cfgPrivateKey := "k" }

def stBoot : SwitchState := { stEmpty with cfgBootStrap := ["x"] }

/- Helper lemmas shared by the claim theorems. -/

theorem lookup_append_none {α β : Type} [BEq α] (l1 l2 : List (α × β)) (k : α)
    (h : l1.lookup k = none) : (l1 ++ l2).lookup k = l2.lookup k := by
  induction l1 with
  | nil => simp
  | cons a t ih =>
    rw [List.cons_append]
    rw [List.lookup] at h ⊢
    cases hk : (k == a.1) with
    | true => rw [hk] at h; exact Option.noConfusion h
    | false => rw [hk] at h; exact ih h

theorem find_id {ps : PeerSet} {id : Identity} {p : Peer}
    (h : ps.Find id = some p) : p.ID = id := by
  unfold PeerSet.Find at h
  have := List.find?_some h
  simpa using this

theorem add_uniqueKeys (ps : PeerSet) (p : Peer) (h : ps.uniqueKeys) :
    (ps.Add p).uniqueKeys := by
  unfold PeerSet.uniqueKeys PeerSet.keys at h ⊢
  unfold PeerSet.Add
  by_cases hany : (ps.entries.any fun q => q.ID == p.ID) = true
  · rw [if_pos hany]
    simp only [List.map_map]
    have hfun : ∀ q ∈ ps.entries,
        (Peer.ID ∘ fun q => if (q.ID == p.ID) = true then p else q) q = Peer.ID q := by
      intro q _
      simp only [Function.comp_apply]
      by_cases hq : (q.ID == p.ID) = true
      · rw [if_pos hq]
        exact (eq_of_beq hq).symm
      · rw [if_neg hq]
    rw [List.map_congr_left hfun]
    exact h
  · rw [if_neg hany]
    simp only [List.map_append, List.map_cons, List.map_nil]
    rw [List.nodup_append]
    refine ⟨h, List.nodup_singleton _, ?_⟩
    intro a ha hb
    simp only [List.mem_singleton] at hb
    subst hb
    simp only [List.mem_map] at ha
    obtain ⟨q, hq, hqid⟩ := ha
    apply hany
    rw [List.any_eq_true]
    exact ⟨q, hq, by simp [hqid]⟩

/-- C6: calling AddReactor twice with the same module returns an error on the
second call and leaves the first registration unchanged in the reactor table;
a first call for a module records the reactor and returns nil. -/
theorem addReactor_duplicate_rejected (st : SwitchState) (mo : Module)
    (f g : Reactor) (h : st.reactor.lookup mo = none) :
    (Switch.AddReactor st mo f).2 = none ∧
    (Switch.AddReactor st mo f).1.reactor = st.reactor ++ [(mo, f)] ∧
    (Switch.AddReactor st mo f).1.reactor.lookup mo = some f ∧
    (Switch.AddReactor (Switch.AddReactor st mo f).1 mo g).2 =
      some PErr.moduleRegistered ∧
    (Switch.AddReactor (Switch.AddReactor st mo f).1 mo g).1 =
      (Switch.AddReactor st mo f).1 := by
  unfold Switch.AddReactor
  rw [h]
  have hl : (st.reactor ++ [(mo, f)]).lookup mo = some f := by
    rw [lookup_append_none st.reactor [(mo, f)] mo h]
    simp [List.lookup]
  simp only [hl]
  refine ⟨?_, ?_, ?_, ?_, ?_⟩ <;> trivial

theorem addReactor_witness :
    (Switch.AddReactor stEmpty 1 5).2 = none ∧
    (Switch.AddReactor (Switch.AddReactor stEmpty 1 5).1 1 6).2 =
      some PErr.moduleRegistered ∧
    (Switch.AddReactor (Switch.AddReactor stEmpty 1 5).1 1 6).1 =
      (Switch.AddReactor stEmpty 1 5).1 := by
  have h := addReactor_duplicate_rejected stEmpty 1 5 6 rfl
  exact ⟨h.1, h.2.2.2.1, h.2.2.2.2⟩

/-- C4: when the identity string decodes to id, Send returns the "peer not
found" error exactly when id is absent from the PeerSet, and otherwise
attempts delivery of the payload tagged with the channel to exactly the peer
registered under id, returning nil precisely when that peer's own Send
succeeds. -/
theorem send_targets_exactly (env : Env) (st : SwitchState) (pr : String)
    (id : Identity) (chID : Int) (msg : List Nat)
    (hdec : env.decode pr = some id) :
    (st.peers.Find id = none →
      Switch.Send env st pr chID msg =
        ([Event.logError "fail to find peer"], some PErr.notFound)) ∧
    (∀ p, st.peers.Find id = some p →
      p.ID = id ∧
      Switch.Send env st pr chID msg =
        ([Event.sendAttempt id chID msg],
         if p.sendOk then none else some PErr.sendFail)) := by
  unfold Switch.Send
  rw [hdec]
  constructor
  · intro hfind
    simp only [hfind]
    rfl
  · intro p hfind
    have hid := find_id hfind
    refine ⟨hid, ?_⟩
    simp only [hfind, hid]
    by_cases hs : p.sendOk = true
    · rw [if_pos hs, if_pos hs]
      rfl
    · rw [if_neg hs, if_neg hs]
      rfl

theorem send_witness :
    Switch.Send env0 stA "A" 1 [2] = ([Event.sendAttempt "A" 1 [2]], none) := by
  have h := (send_targets_exactly env0 stA "A" "A" 1 [2] (by decide)).2 peerA
    (by decide)
  exact h.2

/-- C9: when identity decoding fails, Send does not return the decode error:
it logs it first and proceeds with the zero-value identity (the empty
string), so the caller sees the "peer not found" error of the lookup of the
empty identity, or the outcome of sending to the peer registered under the
empty identity, never a parse error. -/
theorem send_decode_failure_proceeds (env : Env) (st : SwitchState)
    (pr : String) (chID : Int) (msg : List Nat)
    (hdec : env.decode pr = none) :
    (Switch.Send env st pr chID msg).1.head? =
      some (Event.logError "fail to convert string to id") ∧
    (st.peers.Find "" = none →
      Switch.Send env st pr chID msg =
        ([Event.logError "fail to convert string to id",
          Event.logError "fail to find peer"], some PErr.notFound)) ∧
    (∀ p, st.peers.Find "" = some p →
      Switch.Send env st pr chID msg =
        ([Event.logError "fail to convert string to id",
          Event.sendAttempt p.ID chID msg],
         if p.sendOk then none else some PErr.sendFail)) := by
  unfold Switch.Send
  rw [hdec]
  refine ⟨?_, ?_, ?_⟩
  · cases hfind : st.peers.Find "" with
    | none => simp only [hfind]; rfl
    | some p =>
      simp only [hfind]
      by_cases hs : p.sendOk = true
      · rw [if_pos hs]; rfl
      · rw [if_neg hs]; rfl
  · intro hfind
    simp only [hfind]
    rfl
  · intro p hfind
    simp only [hfind]
    by_cases hs : p.sendOk = true
    · rw [if_pos hs, if_pos hs]; rfl
    · rw [if_neg hs, if_neg hs]; rfl

theorem send_decode_witness :
    Switch.Send env0 stA "Q" 1 [2] =
      ([Event.logError "fail to convert string to id",
        Event.logError "fail to find peer"], some PErr.notFound) := by
  have h := send_decode_failure_proceeds env0 stA "Q" 1 [2] (by decide)
  exact h.2.1 (by decide)

/-- C3: Broadcast attempts a send of the payload on the channel to every
peer registered at the start of the traversal, its completion log line comes
only after all those attempts, it records one outcome per registered peer,
and with zero live peers it returns immediately with no attempts and no
error. -/
theorem broadcast_covers_all_peers (st : SwitchState) (chID : Int)
    (msg : List Nat) :
    (∀ p ∈ st.peers.entries,
      Event.sendAttempt p.ID chID msg ∈ (Switch.Broadcast st chID msg).2) ∧
    (Switch.Broadcast st chID msg).2.getLast? =
      some (Event.logInfo "Broadcast completed") ∧
    (Switch.Broadcast st chID msg).1.length = st.peers.entries.length ∧
    (st.peers.entries = [] →
      Switch.Broadcast st chID msg = ([], [Event.logInfo "Broadcast completed"])) := by
  unfold Switch.Broadcast PeerSet.Range
  refine ⟨?_, ?_, ?_, ?_⟩
  · intro p hp
    simp only [List.map_map]
    apply List.mem_append_left
    exact List.mem_map_of_mem _ hp
  · simp only [List.map_map]
    exact List.getLast?_concat _
  · simp [List.map_map]
  · intro hnil
    simp [hnil]

theorem broadcast_witness :
    Event.sendAttempt "A" 1 [2] ∈ (Switch.Broadcast stA 1 [2]).2 ∧
    Switch.Broadcast stEmpty 1 [2] = ([], [Event.logInfo "Broadcast completed"]) :=
  ⟨(broadcast_covers_all_peers stA 1 [2]).1 peerA (by decide),
   (broadcast_covers_all_peers stEmpty 1 [2]).2.2.2 rfl⟩

/-- C8: on the outbound path, when no still-valid peer exists for the
identity, the stream opens, and constructing the new Peer fails,
dialPeersAsync closes the stream, removes the identity from the DHT routing
table, returns the construction error, and leaves the PeerSet unchanged. -/
theorem dial_construct_failure (env : Env) (st : SwitchState) (id : Identity)
    (s : Stream) (hnf : existingValid st.peers id = false)
    (hs : env.newStream id = some s)
    (hp : env.NewDefaultPeer (env.peerInfo id) s = none) :
    Switch.dialPeersAsync env st id =
      ({ st with routingTable := st.routingTable.erase id },
       [Event.logError "new remote peer fail", Event.closeStream s,
        Event.dhtRemove id], some PErr.newPeerErr) ∧
    (Switch.dialPeersAsync env st id).1.peers = st.peers := by
  unfold Switch.dialPeersAsync
  simp only [hnf, Bool.false_eq_true, if_false, hs, hp]
  refine ⟨?_, ?_⟩ <;> trivial

theorem dial_failure_witness :
    Switch.dialPeersAsync envFailPeer stEmpty "Z" =
      (stEmpty,
       [Event.logError "new remote peer fail", Event.closeStream 7,
        Event.dhtRemove "Z"], some PErr.newPeerErr) := by
  have h := dial_construct_failure envFailPeer stEmpty "Z" 7 (by decide) rfl rfl
  exact h.1

/-- C7 counterexample: with an existing still-valid peer for identity A, the
inbound path handleStream does log an error-level line ("use an old one")
while discarding the duplicate, so the attempt is not silent on the inbound
path; the PeerSet is still left unchanged. -/
theorem handleStream_duplicate_logs_error :
    (Switch.handleStream env0 stA "A" 3).2 = [Event.logError "use an old one"] ∧
    (Switch.handleStream env0 stA "A" 3).1 = stA := by decide

/-- C7 amended: when a connection attempt finds an existing still-valid peer
for the same identity, the attempt is discarded with no error returned and
the PeerSet and the existing entry left unchanged; the outbound path is
fully silent (no log, no event), while the inbound path logs exactly one
error-level "use an old one" line. -/
theorem duplicate_valid_discarded_frame (env : Env) (st : SwitchState)
    (id : Identity) (ns : Stream) (h : existingValid st.peers id = true) :
    Switch.dialPeersAsync env st id = (st, [], none) ∧
    (Switch.handleStream env st id ns).1 = st ∧
    (Switch.handleStream env st id ns).2 = [Event.logError "use an old one"] := by
  unfold Switch.dialPeersAsync Switch.handleStream
  rw [if_pos h, if_pos h]
  refine ⟨?_, ?_, ?_⟩ <;> trivial

theorem duplicate_discard_witness :
    Switch.dialPeersAsync env0 stA "C" = (stA, [], none) ∧
    (Switch.handleStream env0 stA "C" 3).1 = stA :=
  ⟨(duplicate_valid_discarded_frame env0 stA "C" 3 (by decide)).1,
   (duplicate_valid_discarded_frame env0 stA "C" 3 (by decide)).2.1⟩

/-- C1: before a new Peer is created on either path, the PeerSet is checked
for an existing entry; if one exists and is still valid, the new attempt is
discarded without replacing it (on both the outbound and the inbound path),
and both paths preserve at-most-one-entry-per-identity in the PeerSet. -/
theorem admission_at_most_one_valid (env : Env) (st : SwitchState)
    (id : Identity) (ns : Stream) (h : PeerSet.uniqueKeys st.peers) :
    (existingValid st.peers id = true →
      Switch.dialPeersAsync env st id = (st, [], none) ∧
      (Switch.handleStream env st id ns).1 = st) ∧
    PeerSet.uniqueKeys (Switch.dialPeersAsync env st id).1.peers ∧
    PeerSet.uniqueKeys (Switch.handleStream env st id ns).1.peers := by
  refine ⟨?_, ?_, ?_⟩
  · intro hv
    unfold Switch.dialPeersAsync Switch.handleStream
    rw [if_pos hv, if_pos hv]
    exact ⟨rfl, rfl⟩
  · unfold Switch.dialPeersAsync
    split
    · exact h
    · split
      · exact h
      · split
        · exact h
        · exact add_uniqueKeys st.peers _ h
  · unfold Switch.handleStream
    split
    · exact h
    · split
      · exact h
      · exact add_uniqueKeys st.peers _ h

theorem admission_witness :
    Switch.dialPeersAsync env0 stA "A" = (stA, [], none) ∧
    PeerSet.uniqueKeys (Switch.handleStream env0 stA "A" 3).1.peers := by
  have h := admission_at_most_one_valid env0 stA "A" 3 (by decide)
  exact ⟨(h.1 (by decide)).1, h.2.2⟩

/-- C10: whenever multiaddress parsing, address-info extraction and the
host-level connect all succeed, Switch.connect returns nil even if the
application-stream dial fails; a dial failure only appends an error log line
to the trace, and the bootstrap loop then logs "build stream success" for
the candidate. -/
theorem connect_swallows_dial_failure (env : Env) (st : SwitchState)
    (s : String) (ma : MAddr) (ai : AddrInfo)
    (h1 : env.parseString s = some ma)
    (h2 : env.addrInfoFromP2pAddr ma = some ai)
    (h3 : env.hostConnect ai = true) :
    (Switch.connect env st s).2.2 = none ∧
    ((Switch.dialPeersAsync env (Switch.afterConnect st ai) ai.ID).2.2.isSome = true →
      (Switch.connect env st s).2.1.getLast? = some (Event.logError "dial fail")) ∧
    (∀ rest, Event.logInfo "build stream success" ∈
      (Switch.connectAll env st (s :: rest)).2) := by
  have hcn : ∀ g : SwitchState × List Event × Option PErr,
      Switch.dialPeersAsync env (Switch.afterConnect st ai) ai.ID = g →
      Switch.connect env st s =
        (g.1, g.2.1 ++ (match g.2.2 with
          | some _ => [Event.logError "dial fail"]
          | none => []), none) := by
    intro g hg
    unfold Switch.connect
    simp only [h1, h2, h3, if_true, hg]
    cases g with
    | mk g1 g2 =>
      cases g2 with
      | mk ge1 ge2 =>
        cases ge2 with
        | none => simp
        | some e0 => simp
  have hc := hcn _ rfl
  refine ⟨?_, ?_, ?_⟩
  · rw [hc]
  · intro hds
    rw [hc]
    cases hde : (Switch.dialPeersAsync env (Switch.afterConnect st ai) ai.ID).2.2 with
    | none => rw [hde] at hds; exact Bool.noConfusion hds
    | some e0 => exact List.getLast?_concat _
  · intro rest
    unfold Switch.connectAll
    cases hr : Switch.connect env st s with
    | mk st1 r2 =>
      cases r2 with
      | mk evs e =>
        have he : e = none := by
          have := congrArg (fun t => t.2.2) hr
          rw [hc] at this
          exact this.symm
        subst he
        cases hrec : Switch.connectAll env st1 rest with
        | mk st2 evs2 => simp

theorem connect_witness :
    (Switch.connect envFailPeer stEmpty "x").2.2 = none ∧
    (Switch.connect envFailPeer stEmpty "x").2.1.getLast? =
      some (Event.logError "dial fail") ∧
    Event.logInfo "build stream success" ∈
      (Switch.connectAll envFailPeer stEmpty ["x"]).2 := by
  have h := connect_swallows_dial_failure envFailPeer stEmpty "x" 0
    { ID := "B", Addrs := [2] } rfl rfl rfl
  exact ⟨h.1, h.2.1 (by decide), h.2.2 []⟩

theorem connectAll_cons (env : Env) (st : SwitchState) (s : String)
    (rest : List String) :
    Switch.connectAll env st (s :: rest) =
      match Switch.connect env st s with
      | (st1, evs, some _) =>
        match Switch.connectAll env st1 rest with
        | (st2, evs2) => (st2, evs ++ evs2)
      | (st1, evs, none) =>
        match Switch.connectAll env st1 rest with
        | (st2, evs2) =>
          (st2, evs ++ [Event.logInfo "build stream success"] ++ evs2) := rfl

theorem connect_unreachable_state (env : Env) (st : SwitchState) (s : String)
    (h : connectUnreachable env s = true) :
    (Switch.connect env st s).1 = st ∧
    (Switch.connect env st s).2.2.isSome = true := by
  unfold connectUnreachable at h
  unfold Switch.connect
  cases hp : env.parseString s with
  | none => exact ⟨rfl, rfl⟩
  | some ma =>
    rw [hp] at h
    dsimp only at h ⊢
    cases ha : env.addrInfoFromP2pAddr ma with
    | none => exact ⟨rfl, rfl⟩
    | some ai =>
      rw [ha] at h
      dsimp only at h ⊢
      have hc : env.hostConnect ai = false := by
        cases hcc : env.hostConnect ai
        · rfl
        · rw [hcc] at h
          exact Bool.noConfusion h
      rw [if_neg (by rw [hc]; exact Bool.false_ne_true)]
      exact ⟨rfl, rfl⟩

theorem connectAll_unreachable (env : Env) (l : List String) :
    ∀ st : SwitchState, (∀ s ∈ l, connectUnreachable env s = true) →
      (Switch.connectAll env st l).1 = st := by
  induction l with
  | nil => intro st _; rfl
  | cons s rest ih =>
    intro st h
    have hcu := connect_unreachable_state env st s (h s (List.mem_cons_self s rest))
    rw [connectAll_cons]
    cases hr : Switch.connect env st s with
    | mk st1 r2 =>
      cases r2 with
      | mk evs e =>
        rw [hr] at hcu
        have hst1 : st1 = st := hcu.1
        have hes : e.isSome = true := hcu.2
        cases e with
        | none => exact Bool.noConfusion hes
        | some e0 =>
          subst hst1
          dsimp only
          cases hrec : Switch.connectAll env st1 rest with
          | mk st2 evs2 =>
            have hx := ih st1 fun t ht => h t (List.mem_cons_of_mem s ht)
            rw [hrec] at hx
            exact hx

theorem bootstrapLoop_unreachable_none (env : Env) (st : SwitchState)
    (hempty : st.routingTable = [])
    (hunreach : ∀ s ∈ st.cfgBootStrap, connectUnreachable env s = true) :
    ∀ fuel, Switch.bootstrapLoop env fuel st = none := by
  intro fuel
  induction fuel with
  | zero => rfl
  | succ n ih =>
    unfold Switch.bootstrapLoop
    cases hr : Switch.connectAll env st st.cfgBootStrap with
    | mk st1 evs =>
      have hst1 : st1 = st := by
        have hx := connectAll_unreachable env st.cfgBootStrap st hunreach
        rw [hr] at hx
        exact hx
      subst hst1
      dsimp only
      rw [if_pos (by rw [hempty]; rfl), ih]

/-- C2: bootstrap retries its connection phase until the DHT routing table
holds at least one peer; with an empty bootstrap list (the hypothesis on
candidates is vacuous) or with every configured candidate permanently
unreachable, the routing table stays empty and bootstrap never terminates at
any fuel, so Start (whose earlier phases all succeeded) never returns. -/
theorem bootstrap_spins_forever (env : Env) (st : SwitchState) (fuel : Nat)
    (d : List Nat) (k : PrivKey) (hostH dhtH : Nat)
    (hok : env.kdhtBootstrapOk = true)
    (hempty : st.routingTable = [])
    (hunreach : ∀ s ∈ st.cfgBootStrap, connectUnreachable env s = true)
    (hb : env.base64Decode st.cfgPrivateKey = some d)
    (hu : env.unmarshalPrivateKey d = some k)
    (hl : env.libp2pNew = some hostH)
    (hd : env.dhtNew = some dhtH) :
    Switch.bootstrap env st fuel = none ∧ Switch.Start env st fuel = none := by
  have hloop := bootstrapLoop_unreachable_none env st hempty hunreach fuel
  have hboot : Switch.bootstrap env st fuel = none := by
    unfold Switch.bootstrap
    rw [if_pos hok, hloop]
  refine ⟨hboot, ?_⟩
  unfold Switch.Start
  simp only [hb, hu, hl, hd, hboot]

theorem bootstrap_spins_witness :
    Switch.bootstrap envUnreach stBoot 4 = none ∧
    Switch.Start envUnreach stBoot 4 = none :=
  bootstrap_spins_forever envUnreach stBoot 4 [0] 0 0 0 rfl rfl (by decide)
    rfl rfl rfl rfl

theorem bootstrap_error_cases (env : Env) (st : SwitchState) (fuel : Nat)
    (st1 : SwitchState) (evs : List Event) (e : Option PErr)
    (h : Switch.bootstrap env st fuel = some (st1, evs, e)) :
    e = none ∨ e = some PErr.kdhtBootstrapErr := by
  unfold Switch.bootstrap at h
  by_cases hok : env.kdhtBootstrapOk = true
  · rw [if_pos hok] at h
    cases hl : Switch.bootstrapLoop env fuel st with
    | none => rw [hl] at h; exact Option.noConfusion h
    | some p =>
      cases p with
      | mk p1 p2 =>
        rw [hl] at h
        have := Option.some.inj h
        exact Or.inl (congrArg (fun t => t.2.2) this).symm
  · rw [if_neg hok] at h
    have := Option.some.inj h
    exact Or.inr (congrArg (fun t => t.2.2) this).symm

/-- C5: Start returns the corresponding non-nil error when base64 key
decoding, private-key unmarshalling, host construction or DHT-client
construction fails; an unreachable bootstrap candidate is skipped by the
connect pass without changing the state; and whatever error Start returns is
only ever nil or one of the fatal startup errors, never a per-candidate
connection error, so Start does not fail merely because individual bootstrap
peers are unreachable. -/
theorem start_error_conditions (env : Env) (st : SwitchState) (fuel : Nat) :
    (env.base64Decode st.cfgPrivateKey = none →
      Switch.Start env st fuel = some (st, [], some PErr.decodeErr)) ∧
    (∀ d, env.base64Decode st.cfgPrivateKey = some d →
      env.unmarshalPrivateKey d = none →
      Switch.Start env st fuel = some (st, [], some PErr.unmarshalErr)) ∧
    (∀ d k, env.base64Decode st.cfgPrivateKey = some d →
      env.unmarshalPrivateKey d = some k → env.libp2pNew = none →
      Switch.Start env st fuel =
        some (st, [Event.logError "new libp2p host failed"], some PErr.hostErr)) ∧
    (∀ d k h1, env.base64Decode st.cfgPrivateKey = some d →
      env.unmarshalPrivateKey d = some k → env.libp2pNew = some h1 →
      env.dhtNew = none →
      Switch.Start env st fuel =
        some (st, [Event.logError "new dht host failed"], some PErr.dhtErr)) ∧
    (∀ s rest, connectUnreachable env s = true →
      (Switch.connectAll env st (s :: rest)).1 =
        (Switch.connectAll env st rest).1) ∧
    (∀ r, Switch.Start env st fuel = some r →
      r.2.2 = none ∨ r.2.2 = some PErr.decodeErr ∨
      r.2.2 = some PErr.unmarshalErr ∨ r.2.2 = some PErr.hostErr ∨
      r.2.2 = some PErr.dhtErr ∨ r.2.2 = some PErr.kdhtBootstrapErr) := by
  refine ⟨?_, ?_, ?_, ?_, ?_, ?_⟩
  · intro hb
    unfold Switch.Start
    rw [hb]
  · intro d hb hu
    unfold Switch.Start
    simp only [hb, hu]
  · intro d k hb hu hl
    unfold Switch.Start
    simp only [hb, hu, hl]
  · intro d k h1 hb hu hl hd
    unfold Switch.Start
    simp only [hb, hu, hl, hd]
  · intro s rest hs
    have hcu := connect_unreachable_state env st s hs
    rw [connectAll_cons]
    cases hr : Switch.connect env st s with
    | mk st1 r2 =>
      cases r2 with
      | mk evs e =>
        rw [hr] at hcu
        have hst1 : st1 = st := hcu.1
        have hes : e.isSome = true := hcu.2
        cases e with
        | none => exact Bool.noConfusion hes
        | some e0 =>
          subst hst1
          dsimp only
  · intro r hr
    unfold Switch.Start at hr
    cases hb : env.base64Decode st.cfgPrivateKey with
    | none =>
      rw [hb] at hr
      rw [← Option.some.inj hr]
      exact Or.inr (Or.inl rfl)
    | some d =>
      simp only [hb] at hr
      cases hu : env.unmarshalPrivateKey d with
      | none =>
        simp only [hu] at hr
        rw [← Option.some.inj hr]
        exact Or.inr (Or.inr (Or.inl rfl))
      | some k =>
        simp only [hu] at hr
        cases hl : env.libp2pNew with
        | none =>
          simp only [hl] at hr
          rw [← Option.some.inj hr]
          exact Or.inr (Or.inr (Or.inr (Or.inl rfl)))
        | some h1 =>
          simp only [hl] at hr
          cases hd : env.dhtNew with
          | none =>
            simp only [hd] at hr
            rw [← Option.some.inj hr]
            exact Or.inr (Or.inr (Or.inr (Or.inr (Or.inl rfl))))
          | some h2 =>
            simp only [hd] at hr
            cases hbb : Switch.bootstrap env st fuel with
            | none =>
              rw [hbb] at hr
              exact Option.noConfusion hr
            | some t =>
              cases t with
              | mk t1 t2 =>
                cases t2 with
                | mk tevs te =>
                  have hec := bootstrap_error_cases env st fuel t1 tevs te hbb
                  rw [hbb] at hr
                  cases te with
                  | none =>
                    rw [← Option.some.inj hr]
                    exact Or.inl rfl
                  | some e0 =>
                    have he0 : e0 = PErr.kdhtBootstrapErr := by
                      cases hec with
                      | inl hx => exact Option.noConfusion hx
                      | inr hx => exact Option.some.inj hx
                    rw [← Option.some.inj hr, he0]
                    exact Or.inr (Or.inr (Or.inr (Or.inr (Or.inr rfl))))

theorem start_witness :
    Switch.Start envNoKey stEmpty 1 = some (stEmpty, [], some PErr.decodeErr) ∧
    (Switch.connectAll envUnreach stBoot ["x"]).1 =
      (Switch.connectAll envUnreach stBoot []).1 :=
  ⟨(start_error_conditions envNoKey stEmpty 1).1 rfl,
   (start_error_conditions envUnreach stBoot 1).2.2.2.2.1 "x" [] (by decide)⟩

end P2P
